import Mathlib

/-!
Shallow embedding of the write-batching core of `src/dev/src/update-builder.ts`
(class `UpdateBuilder` and its helpers), together with a model of the
`BulkWriter` batch scheduler described by the design document (the scheduler's
own source is not part of this fragment; only its tests are).
-/

namespace FirestoreBatch

/-- Wire timestamps as (seconds, nanos) pairs. `Timestamp.fromProto` keeps the
two components, so the proto form and the wrapped form coincide here. -/
structure Timestamp where
  seconds : Int
  nanos : Int
deriving DecidableEq, Inhabited

/-- google.rpc.IStatus: the per-write status entry of a BatchWriteResponse. -/
structure IStatus where
  code : Nat
  message : Option String
deriving DecidableEq, Inhabited

/-- Status code OK (google-gax Status.OK = 0). -/
def StatusOK : Nat := 0

/-- GoogleError as constructed by bulkCommit: new GoogleError(status.message ||
undefined) with error.code = status.code. A present-but-empty message string
is falsy in JS and becomes undefined. -/
structure GoogleError where
  code : Nat
  message : Option String
deriving DecidableEq, Inhabited

def mkGoogleError (s : IStatus) : GoogleError :=
  { code := s.code
    message :=
      match s.message with
      | some m => if m = "" then none else some m
      | none => none }

/-- api.IWriteResult: updateTime may be absent. -/
structure IWriteResult where
  updateTime : Option Timestamp
deriving DecidableEq, Inhabited

/-- WriteResult wraps the write time (class WriteResult). -/
structure WriteResult where
  writeTime : Timestamp
deriving DecidableEq, Inhabited

/-- BatchWriteResult pairs an optional write time with a status error. -/
structure BatchWriteResult where
  writeTime : Option Timestamp
  status : GoogleError
deriving DecidableEq, Inhabited

/-- One entry of the response mapping of bulkCommit:
new BatchWriteResult(result.updateTime ? Timestamp.fromProto(...) : null,
error), where error carries status[i].code and status[i].message. -/
def mkBatchWriteResult (r : IWriteResult) (s : IStatus) : BatchWriteResult :=
  { writeTime := r.updateTime, status := mkGoogleError s }

/-- Response processing of bulkCommit:
(response.writeResults || []).map((result, i) => ... response.status[i] ...).
Indexing status past its end crashes in JS (reading .message of undefined),
modelled as none. -/
def bulkCommitResults (writeResults : List IWriteResult) (status : List IStatus) :
    Option (List BatchWriteResult) :=
  if writeResults.length ≤ status.length then
    some (List.zipWith mkBatchWriteResult writeResults status)
  else none

/-- The promise returned by processOperation: a present writeTime resolves to a
WriteResult, otherwise the status error is thrown. -/
def settleOperation (r : BatchWriteResult) : Except GoogleError WriteResult :=
  match r.writeTime with
  | some t => Except.ok { writeTime := t }
  | none => Except.error r.status

/-- commit_ response processing:
WriteResult(Timestamp.fromProto(writeResult.updateTime || response.commitTime)). -/
def commitResults (writeResults : List IWriteResult) (commitTime : Timestamp) :
    List WriteResult :=
  writeResults.map (fun wr => { writeTime := wr.updateTime.getD commitTime })

/-- The commit_ promise settles as a whole: an RPC error rejects everything at
once; there is no per-operation settlement in commit mode. -/
def commitSettle (rpc : Except GoogleError (List IWriteResult × Timestamp)) :
    Except GoogleError (List WriteResult) :=
  match rpc with
  | Except.error e => Except.error e
  | Except.ok (ws, ct) => Except.ok (commitResults ws ct)

/-- GCF_IDLE_TIMEOUT_MS = 110 * 1000. -/
def GCF_IDLE_TIMEOUT_MS : Int := 110 * 1000

/-- The decision _shouldCreateTransaction(). The policy flag and the idle clock live on the
Firestore client; a falsy _lastSuccessfulRequest (never set) yields true. -/
def shouldCreateTransaction (preferTransactions : Bool)
    (lastSuccessfulRequest : Option Int) (now : Int) : Bool :=
  if !preferTransactions then false
  else
    match lastSuccessfulRequest with
    | some last => decide (now - last > GCF_IDLE_TIMEOUT_MS)
    | none => true

/-- The RPC plan of commit_: whether beginTransaction is issued before the
commit, and the transaction id the commit request carries. The recursion in
commit_ re-enters with an explicit id, which then takes the direct path. -/
structure CommitRpcPlan where
  beginTransactionIssued : Bool
  transactionField : Option (List Nat)
deriving DecidableEq

def commitPlan (explicitTransaction : Option (List Nat)) (preferTransactions : Bool)
    (lastSuccessfulRequest : Option Int) (now : Int) (newTransaction : List Nat) :
    CommitRpcPlan :=
  if explicitTransaction.isNone &&
      shouldCreateTransaction preferTransactions lastSuccessfulRequest now then
    { beginTransactionIssued := true, transactionField := some newTransaction }
  else
    { beginTransactionIssued := false, transactionField := explicitTransaction }

/-- api.IPrecondition wire form. -/
structure Precond where
  existsOpt : Option Bool := none
  updateTime : Option Timestamp := none
deriving DecidableEq, Inhabited

/-- Modelled from the spec: the Precondition value class of the document module
(document.ts, a collaborator outside this fragment). Design doc section 6:
"a precondition builder from user input to wire form (exists: bool xor
lastUpdateTime: Timestamp)". An empty precondition has no wire form, which is
what the `if (req.precondition)` guards in bulkCommit and commit_ test for. -/
structure PreconditionData where
  existsOpt : Option Bool := none
  lastUpdateTime : Option Timestamp := none
deriving DecidableEq, Inhabited

def PreconditionData.isEmpty (p : PreconditionData) : Bool :=
  p.existsOpt.isNone && p.lastUpdateTime.isNone

def PreconditionData.toProto (p : PreconditionData) : Option Precond :=
  if p.isEmpty then none
  else if p.lastUpdateTime.isSome then some { updateTime := p.lastUpdateTime }
  else some { existsOpt := p.existsOpt }

/-- validatePrecondition from the source, restricted to type-correct inputs
(type errors cannot arise in the typed model): with allowExists false an
exists field is rejected; specifying more than one condition is rejected.
Returns true when validation passes. -/
def validatePrecondition (allowExists : Bool) (p : PreconditionData) : Bool :=
  if p.existsOpt.isSome && !allowExists then false
  else
    decide ((if p.existsOpt.isSome then 1 else 0) +
            (if p.lastUpdateTime.isSome then 1 else 0) ≤ 1)

/-- Modelled from the spec: FieldPath (path.ts, a collaborator outside this
fragment) is a sequence of string segments; compareTo orders paths segment by
segment and then by length, and a path conflicts with another when its
segments lead those of the other ("duplicate/prefix field paths (e.g. both "a" and
"a.b" specified)"). -/
def segCmp (a b : String) : Ordering :=
  if a < b then Ordering.lt else if b < a then Ordering.gt else Ordering.eq

def fpCmp : List String → List String → Ordering
  | [], [] => Ordering.eq
  | [], _ :: _ => Ordering.lt
  | _ :: _, [] => Ordering.gt
  | a :: as, b :: bs =>
    match segCmp a b with
    | Ordering.eq => fpCmp as bs
    | o => o

def fpLe (a b : List String) : Prop := fpCmp a b ≠ Ordering.gt

instance (a b : List String) : Decidable (fpLe a b) :=
  inferInstanceAs (Decidable (fpCmp a b ≠ Ordering.gt))

/-- One field path leading another (equal paths count, as the sort keeps both
copies and the adjacent scan then compares a path with itself). -/
def fpPre : List String → List String → Bool
  | [], _ => true
  | _ :: _, [] => false
  | a :: as, b :: bs => a == b && fpPre as bs

/-- Two field paths conflict when either leads the other. -/
def fpConflict (a b : List String) : Prop := fpPre a b = true ∨ fpPre b a = true

/-- fields.sort((l, r) => l.compareTo(r)). Comparator-equal field paths are
equal segment lists, so the sorted permutation is unique and insertion sort
coincides with the sort in the source. -/
def sortedFields (fields : List (List String)) : List (List String) :=
  List.insertionSort fpLe fields

/-- The adjacent scan of validateNoConflictingFields, returning the offending
field named in the thrown error. -/
def adjacentConflict : List (List String) → Option (List String)
  | a :: b :: rest => if fpPre a b then some a else adjacentConflict (b :: rest)
  | _ => none

def validateNoConflictingFields (fields : List (List String)) : Option (List String) :=
  adjacentConflict (sortedFields fields)

/-- BatchState from the source. -/
inductive BatchState where
  | OPEN
  | READY_TO_SEND
  | SENT
deriving DecidableEq, Inhabited

/-- api.IWrite as assembled here: the document payload (fields, transforms) is
produced by the Serializer collaborator and tracked opaquely as updateBody;
update-builder.ts itself only adds updateMask and currentDocument. -/
structure Write where
  updateBody : Option Nat := none
  deleteDoc : Option String := none
  updateMask : Option (List (List String)) := none
  currentDocument : Option Precond := none
deriving DecidableEq, Inhabited

/-- WriteOp: the {write, precondition?} pair a payload producer yields. -/
structure WriteOp where
  write : Write
  precondition : Option Precond := none
deriving DecidableEq, Inhabited

/-- The synchronous failures of the enqueue methods: the verifyNotCommitted
error, the two assertions of processOperation, and the argument-validation
errors of update and delete. -/
inductive WriteError where
  | alreadyCommitted
  | assertDuplicateDocument
  | assertBatchNotOpen
  | invalidPrecondition
  | emptyUpdateMap
  | conflictingFields (field : List String)
deriving DecidableEq

/-- The mutable state of an UpdateBuilder: state, docPaths (a Set, kept as a
duplicate-free list in insertion order), the size of resultsMap (its keys are
exactly 0..size-1, so opCount = resultsMapSize), the deferred payload
producers _ops, and _committed. -/
structure Builder where
  state : BatchState
  docPaths : List String
  resultsMapSize : Nat
  ops : List (Unit → WriteOp)
  committed : Bool
  maxBatchSize : Nat

def newBuilder (maxBatchSize : Nat) : Builder :=
  { state := BatchState.OPEN, docPaths := [], resultsMapSize := 0, ops := [],
    committed := false, maxBatchSize := maxBatchSize }

def Builder.opCount (b : Builder) : Nat := b.resultsMapSize

/-- processOperation: asserts that the path is not yet present and that the
batch is OPEN, grows docPaths and resultsMap, and flips the state to
READY_TO_SEND once the batch holds maxBatchSize operations. -/
def processOperation (b : Builder) (path : String) : Except WriteError Builder :=
  if path ∈ b.docPaths then Except.error WriteError.assertDuplicateDocument
  else if b.state = BatchState.OPEN then
    let b1 : Builder := { b with docPaths := b.docPaths ++ [path],
                                 resultsMapSize := b.resultsMapSize + 1 }
    if b1.resultsMapSize = b1.maxBatchSize then
      Except.ok { b1 with state := BatchState.READY_TO_SEND }
    else Except.ok b1
  else Except.error WriteError.assertBatchNotOpen

/-- Common tail of create/set/update/delete: verifyNotCommitted, push the
payload thunk onto _ops, then processOperation. A thrown JS exception leaves
the mutations already made in place, so on the two assertion failures the
freshly pushed thunk stays in _ops. -/
def addWrite (b : Builder) (path : String) (thunk : Unit → WriteOp) :
    Builder × Option WriteError :=
  if b.committed then (b, some WriteError.alreadyCommitted)
  else
    let b1 : Builder := { b with ops := b.ops ++ [thunk] }
    match processOperation b1 path with
    | Except.ok b2 => (b2, none)
    | Except.error e => (b1, some e)

/-- The payload producer of create(): the document proto plus
Precondition({exists: false}). -/
def createThunk (body : Nat) : Unit → WriteOp :=
  fun _ => { write := { updateBody := some body },
             precondition := some { existsOpt := some false } }

def Builder.create (b : Builder) (path : String) (body : Nat) :
    Builder × Option WriteError :=
  addWrite b path (createThunk body)

/-- The payload producer of set() returns {write} only: no precondition. -/
def setThunk (body : Nat) (mask : Option (List (List String))) : Unit → WriteOp :=
  fun _ => { write := { updateBody := some body, updateMask := mask } }

def Builder.set (b : Builder) (path : String) (body : Nat) :
    Builder × Option WriteError :=
  addWrite b path (setThunk body none)

/-- The payload producer of delete(): new Precondition(precondition).toProto(),
where an omitted argument gives the empty precondition. -/
def deleteThunk (path : String) (conditions : PreconditionData) : Unit → WriteOp :=
  fun _ => { write := { deleteDoc := some path }, precondition := conditions.toProto }

def Builder.delete (b : Builder) (path : String)
    (userPrecondition : Option PreconditionData) : Builder × Option WriteError :=
  if !(match userPrecondition with
       | some p => validatePrecondition true p
       | none => true) then
    (b, some WriteError.invalidPrecondition)
  else addWrite b path (deleteThunk path (userPrecondition.getD {}))

/-- update(): the precondition starts as Precondition({exists: true}) and is
replaced by the caller-supplied one when present. -/
def updateEffectivePrecondition (userPrecondition : Option PreconditionData) :
    PreconditionData :=
  match userPrecondition with
  | some p => p
  | none => { existsOpt := some true }

/-- The payload producer of update(): document proto, updateMask, and the effective
precondition's proto. -/
def updateThunk (body : Nat) (mask : List (List String))
    (precondition : PreconditionData) : Unit → WriteOp :=
  fun _ => { write := { updateBody := some body, updateMask := some mask },
             precondition := precondition.toProto }

/-- update(), object form: verifyNotCommitted, validateUpdateMap (rejecting an
empty map), validateUpdatePrecondition (allowExists = false), then
validateNoConflictingFields, and only then the push and processOperation. -/
def Builder.update (b : Builder) (path : String) (fieldPaths : List (List String))
    (body : Nat) (userPrecondition : Option PreconditionData) :
    Builder × Option WriteError :=
  if b.committed then (b, some WriteError.alreadyCommitted)
  else if fieldPaths.isEmpty then (b, some WriteError.emptyUpdateMap)
  else if !(match userPrecondition with
            | some p => validatePrecondition false p
            | none => true) then
    (b, some WriteError.invalidPrecondition)
  else
    match validateNoConflictingFields fieldPaths with
    | some f => (b, some (WriteError.conflictingFields f))
    | none =>
      addWrite b path (updateThunk body fieldPaths
        (updateEffectivePrecondition userPrecondition))

/-- The operation _reset(): this._ops.splice(0); this._committed = false. docPaths, the
resultsMap and the state are untouched. -/
def Builder.reset (b : Builder) : Builder := { b with ops := [], committed := false }

/-- The serialization loop shared by bulkCommit and commit_: a truthy
precondition is attached to the write as currentDocument. -/
def applyPrecondition (req : WriteOp) : Write :=
  match req.precondition with
  | some p => { req.write with currentDocument := some p }
  | none => req.write

/-- The writes array of the request: every payload producer is run, in _ops order,
and its precondition attached. -/
def requestWrites (b : Builder) : List Write :=
  (b.ops.map (fun op => op ())).map applyPrecondition

/-- bulkCommit up to the RPC: sets _committed and serializes the request. -/
def Builder.bulkCommit (b : Builder) : Builder × List Write :=
  let b1 : Builder := { b with committed := true }
  (b1, requestWrites b1)

/-- The size invariant of a batch: docPaths, the stored operation thunks and
the result slots stay in bijection, and each document path appears once. -/
def batchInvariant (b : Builder) : Prop :=
  b.docPaths.length = b.ops.length ∧ b.resultsMapSize = b.ops.length ∧ b.docPaths.Nodup

/-- Modelled from the spec: the BulkWriter scheduler (src/bulk-writer.ts is not
part of this fragment; only its tests are). Design doc section 4.2: a queue
of batches of which only the last may be OPEN; enqueue appends to the last
OPEN batch, but a write to a document already in that batch marks it
READY_TO_SEND and opens a fresh batch; the dispatcher sends batches in queue
order, one batchWrite RPC per batch. Ops are (sequence number, document
path) pairs. -/
structure SchedBatch where
  bstate : BatchState
  bdocPaths : List String
  bops : List (Nat × String)
deriving DecidableEq, Inhabited

def freshBatch : SchedBatch :=
  { bstate := BatchState.OPEN, bdocPaths := [], bops := [] }

def batchAppend (batch : SchedBatch) (maxSize : Nat) (op : Nat × String) : SchedBatch :=
  { bstate := if batch.bops.length + 1 = maxSize then BatchState.READY_TO_SEND
              else batch.bstate,
    bdocPaths := batch.bdocPaths ++ [op.2],
    bops := batch.bops ++ [op] }

def enqueue : List SchedBatch → Nat → (Nat × String) → List SchedBatch
  | [], maxSize, op => [batchAppend freshBatch maxSize op]
  | [cur], maxSize, op =>
    if cur.bstate = BatchState.OPEN then
      if op.2 ∈ cur.bdocPaths then
        [{ cur with bstate := BatchState.READY_TO_SEND },
         batchAppend freshBatch maxSize op]
      else [batchAppend cur maxSize op]
    else [cur, batchAppend freshBatch maxSize op]
  | b :: b2 :: rest, maxSize, op => b :: enqueue (b2 :: rest) maxSize op

/-- One batchWrite RPC per batch, in queue order. -/
def rpcWrites (q : List SchedBatch) : List (List (Nat × String)) :=
  q.map SchedBatch.bops

theorem getD_map_of_lt {α β : Type} [Inhabited α] [Inhabited β] (f : α → β) :
    ∀ (l : List α) (i : Nat), i < l.length →
      (l.map f).getD i default = f (l.getD i default)
  | [], i, h => absurd h (by simp)
  | a :: l, 0, _ => rfl
  | a :: l, i + 1, h =>
    getD_map_of_lt f l i (by simpa using Nat.lt_of_succ_lt_succ h)

theorem zipWith_getD {α β γ : Type} [Inhabited α] [Inhabited β] [Inhabited γ]
    (f : α → β → γ) :
    ∀ (l1 : List α) (l2 : List β) (i : Nat), i < l1.length → l1.length ≤ l2.length →
      (List.zipWith f l1 l2).getD i default = f (l1.getD i default) (l2.getD i default)
  | [], _, i, h, _ => absurd h (by simp)
  | a :: l1, [], i, _, hle => absurd hle (by simp)
  | a :: l1, b :: l2, 0, _, _ => rfl
  | a :: l1, b :: l2, i + 1, h, hle =>
    zipWith_getD f l1 l2 i (Nat.lt_of_succ_lt_succ h) (Nat.le_of_succ_le_succ hle)

theorem segCmp_eq_iff (a b : String) : segCmp a b = Ordering.eq ↔ a = b := by
  unfold segCmp
  by_cases h1 : a < b
  · simp [h1, ne_of_lt h1]
  · by_cases h2 : b < a
    · simp [h1, h2, (ne_of_lt h2).symm]
    · simp [h1, h2, le_antisymm (le_of_not_lt h2) (le_of_not_lt h1)]

theorem segCmp_lt_iff (a b : String) : segCmp a b = Ordering.lt ↔ a < b := by
  unfold segCmp
  by_cases h1 : a < b
  · simp [h1]
  · by_cases h2 : b < a <;> simp [h1, h2]

theorem segCmp_gt_iff (a b : String) : segCmp a b = Ordering.gt ↔ b < a := by
  unfold segCmp
  by_cases h1 : a < b
  · simp [h1, asymm h1]
  · by_cases h2 : b < a <;> simp [h1, h2]

theorem fpCmp_eq_iff : ∀ a b : List String, fpCmp a b = Ordering.eq ↔ a = b
  | [], [] => by simp [fpCmp]
  | [], _ :: _ => by simp [fpCmp]
  | _ :: _, [] => by simp [fpCmp]
  | a :: as, b :: bs => by
    cases h : segCmp a b with
    | lt =>
      have hne : a ≠ b := fun he => by
        rw [(segCmp_eq_iff a b).mpr he] at h
        exact absurd h (by decide)
      simp [fpCmp, h, hne]
    | eq =>
      have he : a = b := (segCmp_eq_iff a b).mp h
      have h2 : segCmp b b = Ordering.eq := (segCmp_eq_iff b b).mpr rfl
      simp [fpCmp, h, he, h2, fpCmp_eq_iff as bs]
    | gt =>
      have hne : a ≠ b := fun he => by
        rw [(segCmp_eq_iff a b).mpr he] at h
        exact absurd h (by decide)
      simp [fpCmp, h, hne]

theorem fpCmp_gt_iff_lt : ∀ a b : List String,
    fpCmp a b = Ordering.gt ↔ fpCmp b a = Ordering.lt
  | [], [] => by simp [fpCmp]
  | [], _ :: _ => by simp [fpCmp]
  | _ :: _, [] => by simp [fpCmp]
  | a :: as, b :: bs => by
    cases h : segCmp a b with
    | lt =>
      have h2 : segCmp b a = Ordering.gt :=
        (segCmp_gt_iff b a).mpr ((segCmp_lt_iff a b).mp h)
      simp [fpCmp, h, h2]
    | eq =>
      have he : a = b := (segCmp_eq_iff a b).mp h
      have h2 : segCmp b a = Ordering.eq := (segCmp_eq_iff b a).mpr he.symm
      simp [fpCmp, h, h2, fpCmp_gt_iff_lt as bs]
    | gt =>
      have h2 : segCmp b a = Ordering.lt :=
        (segCmp_lt_iff b a).mpr ((segCmp_gt_iff a b).mp h)
      simp [fpCmp, h, h2]

theorem fpLe_refl (a : List String) : fpLe a a := by
  simp [fpLe, (fpCmp_eq_iff a a).mpr rfl]

theorem fpLe_total (a b : List String) : fpLe a b ∨ fpLe b a := by
  by_cases h : fpCmp a b = Ordering.gt
  · right
    have : fpCmp b a = Ordering.lt := (fpCmp_gt_iff_lt a b).mp h
    simp [fpLe, this]
  · exact Or.inl h

theorem fpLe_antisymm {a b : List String} (h1 : fpLe a b) (h2 : fpLe b a) : a = b := by
  cases h : fpCmp a b with
  | lt =>
    have : fpCmp b a = Ordering.gt := (fpCmp_gt_iff_lt b a).mpr h
    exact absurd this h2
  | eq => exact (fpCmp_eq_iff a b).mp h
  | gt => exact absurd h h1

theorem fpLe_trans : ∀ a b c : List String, fpLe a b → fpLe b c → fpLe a c
  | [], b, c, _, _ => by cases c <;> simp [fpLe, fpCmp]
  | a :: as, [], c, h1, _ => by simp [fpLe, fpCmp] at h1
  | a :: as, b :: bs, [], _, h2 => by simp [fpLe, fpCmp] at h2
  | a :: as, b :: bs, c :: cs, h1, h2 => by
    cases hab : segCmp a b with
    | gt => simp [fpLe, fpCmp, hab] at h1
    | lt =>
      cases hbc : segCmp b c with
      | gt => simp [fpLe, fpCmp, hbc] at h2
      | lt =>
        have hac : segCmp a c = Ordering.lt :=
          (segCmp_lt_iff a c).mpr
            (lt_trans ((segCmp_lt_iff a b).mp hab) ((segCmp_lt_iff b c).mp hbc))
        simp [fpLe, fpCmp, hac]
      | eq =>
        have hbceq : b = c := (segCmp_eq_iff b c).mp hbc
        have hac : segCmp a c = Ordering.lt :=
          (segCmp_lt_iff a c).mpr (hbceq ▸ (segCmp_lt_iff a b).mp hab)
        simp [fpLe, fpCmp, hac]
    | eq =>
      have habeq : a = b := (segCmp_eq_iff a b).mp hab
      cases hbc : segCmp b c with
      | gt => simp [fpLe, fpCmp, hbc] at h2
      | lt =>
        have hac : segCmp a c = Ordering.lt :=
          (segCmp_lt_iff a c).mpr (habeq ▸ (segCmp_lt_iff b c).mp hbc)
        simp [fpLe, fpCmp, hac]
      | eq =>
        have hbceq : b = c := (segCmp_eq_iff b c).mp hbc
        have hac : segCmp a c = Ordering.eq :=
          (segCmp_eq_iff a c).mpr (habeq.trans hbceq)
        have h1r : fpLe as bs := by simpa [fpLe, fpCmp, hab] using h1
        have h2r : fpLe bs cs := by simpa [fpLe, fpCmp, hbc] using h2
        have := fpLe_trans as bs cs h1r h2r
        simpa [fpLe, fpCmp, hac] using this

theorem fpPre_refl : ∀ a : List String, fpPre a a = true
  | [] => rfl
  | a :: as => by simp [fpPre, fpPre_refl as]

theorem fpPre_le : ∀ a b : List String, fpPre a b = true → fpLe a b
  | [], b, _ => by cases b <;> simp [fpLe, fpCmp]
  | a :: as, [], h => by simp [fpPre] at h
  | a :: as, b :: bs, h => by
    rw [fpPre, Bool.and_eq_true, beq_iff_eq] at h
    obtain ⟨he, hrest⟩ := h
    have hseg : segCmp a b = Ordering.eq := (segCmp_eq_iff a b).mpr he
    have := fpPre_le as bs hrest
    simpa [fpLe, fpCmp, hseg] using this

theorem fpPre_of_le_le : ∀ a b c : List String,
    fpLe a b → fpLe b c → fpPre a c = true → fpPre a b = true
  | [], _, _, _, _, _ => rfl
  | x :: as, b, [], _, _, hpre => by simp [fpPre] at hpre
  | x :: as, [], z :: cs, h1, _, _ => by simp [fpLe, fpCmp] at h1
  | x :: as, y :: bs, z :: cs, h1, h2, hpre => by
    rw [fpPre, Bool.and_eq_true, beq_iff_eq] at hpre
    obtain ⟨hxz, hrest⟩ := hpre
    cases hxy : segCmp x y with
    | gt => simp [fpLe, fpCmp, hxy] at h1
    | lt =>
      have hyz : segCmp y z = Ordering.gt := by
        rw [segCmp_gt_iff]
        rw [← hxz]
        exact (segCmp_lt_iff x y).mp hxy
      simp [fpLe, fpCmp, hyz] at h2
    | eq =>
      have hxyeq : x = y := (segCmp_eq_iff x y).mp hxy
      have h1r : fpLe as bs := by simpa [fpLe, fpCmp, hxy] using h1
      have hyzeq : segCmp y z = Ordering.eq :=
        (segCmp_eq_iff y z).mpr (hxyeq ▸ hxz)
      have h2r : fpLe bs cs := by simpa [fpLe, fpCmp, hyzeq] using h2
      have := fpPre_of_le_le as bs cs h1r h2r hrest
      simp [fpPre, hxyeq, this]

/-- In a list sorted by compareTo, any conflicting pair forces a conflicting
adjacent pair, so the adjacent scan of validateNoConflictingFields is
complete. -/
theorem sorted_conflict_adjacent : ∀ l : List (List String),
    List.Pairwise fpLe l → ¬ List.Pairwise (fun x y => ¬ fpConflict x y) l →
    (adjacentConflict l).isSome = true := by
  intro l
  induction l with
  | nil => intro _ hnp; exact absurd List.Pairwise.nil hnp
  | cons a t ih =>
    intro hs hnp
    rw [List.pairwise_cons] at hs
    by_cases hA : ∀ y ∈ t, ¬ fpConflict a y
    · have hnt : ¬ List.Pairwise (fun x y => ¬ fpConflict x y) t := by
        intro hpt
        exact hnp (List.pairwise_cons.mpr ⟨hA, hpt⟩)
      cases t with
      | nil => exact absurd List.Pairwise.nil hnt
      | cons b rest =>
        have := ih hs.2 hnt
        by_cases hab : fpPre a b = true <;> simp [adjacentConflict, hab, this]
    · push_neg at hA
      obtain ⟨y, hy, hcy⟩ := hA
      cases t with
      | nil => exact absurd hy (List.not_mem_nil y)
      | cons b rest =>
        have hleab : fpLe a b := hs.1 b (List.mem_cons_self b rest)
        have hleay : fpLe a y := hs.1 y hy
        have hleby : fpLe b y := by
          rcases List.mem_cons.mp hy with he | hmem
          · exact he ▸ fpLe_refl b
          · exact (List.pairwise_cons.mp hs.2).1 y hmem
        have hpre : fpPre a b = true := by
          rcases hcy with hay | hya
          · exact fpPre_of_le_le a b y hleab hleby hay
          · have : a = y := fpLe_antisymm hleay (fpPre_le y a hya)
            exact fpPre_of_le_le a b y hleab hleby (this ▸ fpPre_refl a)
        simp [adjacentConflict, hpre]

/-- Whenever the update map holds two field paths of which one leads the
other, validateNoConflictingFields reports a conflict. -/
theorem conflict_detected (fields : List (List String))
    (h : ∃ i j, i < fields.length ∧ j < fields.length ∧ i ≠ j ∧
        fpPre (fields.getD i []) (fields.getD j []) = true) :
    (validateNoConflictingFields fields).isSome = true := by
  obtain ⟨i, j, hi, hj, hij, hpre⟩ := h
  rw [List.getD_eq_getElem fields [] hi, List.getD_eq_getElem fields [] hj] at hpre
  have hnp : ¬ List.Pairwise (fun x y => ¬ fpConflict x y) fields := by
    intro hp
    rw [List.pairwise_iff_getElem] at hp
    rcases Nat.lt_or_ge i j with hlt | hge
    · exact hp i j hi hj hlt (Or.inl hpre)
    · have hlt : j < i := Nat.lt_of_le_of_ne hge (Ne.symm hij)
      exact hp j i hj hi hlt (Or.inr hpre)
  have hperm : List.Perm (sortedFields fields) fields :=
    List.perm_insertionSort fpLe fields
  have hnps : ¬ List.Pairwise (fun x y => ¬ fpConflict x y) (sortedFields fields) := by
    intro hps
    exact hnp ((hperm.pairwise_iff (fun hxy c => hxy c.symm)).mp hps)
  have hsorted : List.Pairwise fpLe (sortedFields fields) :=
    @List.sorted_insertionSort (List String) fpLe _ ⟨fpLe_total⟩
      ⟨fun a b c => fpLe_trans a b c⟩ fields
  exact sorted_conflict_adjacent (sortedFields fields) hsorted hnps

theorem enqueue_cons_of_ne_nil (b : SchedBatch) (t : List SchedBatch) (ht : t ≠ [])
    (m : Nat) (op : Nat × String) :
    enqueue (b :: t) m op = b :: enqueue t m op := by
  cases t with
  | nil => exact absurd rfl ht
  | cons b2 rest => rfl

/-- After an enqueue, the write sits in the final batch of the queue and its
document path is registered there. -/
theorem enqueue_last : ∀ (q : List SchedBatch) (m : Nat) (op : Nat × String),
    ∃ qinit L, enqueue q m op = qinit ++ [L] ∧ op ∈ L.bops ∧ op.2 ∈ L.bdocPaths := by
  intro q
  induction q with
  | nil =>
    intro m op
    exact ⟨[], batchAppend freshBatch m op, rfl, by simp [batchAppend, freshBatch],
      by simp [batchAppend, freshBatch]⟩
  | cons b t ih =>
    intro m op
    cases t with
    | nil =>
      by_cases hst : b.bstate = BatchState.OPEN
      · by_cases hmem : op.2 ∈ b.bdocPaths
        · exact ⟨[{ b with bstate := BatchState.READY_TO_SEND }],
            batchAppend freshBatch m op, by simp [enqueue, hst, hmem],
            by simp [batchAppend, freshBatch], by simp [batchAppend, freshBatch]⟩
        · exact ⟨[], batchAppend b m op, by simp [enqueue, hst, hmem],
            by simp [batchAppend], by simp [batchAppend]⟩
      · exact ⟨[b], batchAppend freshBatch m op, by simp [enqueue, hst],
          by simp [batchAppend, freshBatch], by simp [batchAppend, freshBatch]⟩
    | cons b2 rest =>
      obtain ⟨qinit, L, heq, hops, hdoc⟩ := ih m op
      exact ⟨b :: qinit, L, by
        rw [enqueue_cons_of_ne_nil b (b2 :: rest) (by simp) m op, heq]
        simp, hops, hdoc⟩

/-- Enqueueing a write whose document path is already registered in the final
batch of the queue puts the write into a strictly later batch; the former
final batch keeps its writes. -/
theorem enqueue_same_doc : ∀ (qinit : List SchedBatch) (L : SchedBatch) (m : Nat)
    (op : Nat × String), op.2 ∈ L.bdocPaths →
    ∃ i j, i < j ∧ j < (enqueue (qinit ++ [L]) m op).length ∧
      ((enqueue (qinit ++ [L]) m op).getD i default).bops = L.bops ∧
      op ∈ ((enqueue (qinit ++ [L]) m op).getD j default).bops := by
  intro qinit
  induction qinit with
  | nil =>
    intro L m op hmem
    by_cases hst : L.bstate = BatchState.OPEN
    · refine ⟨0, 1, Nat.zero_lt_one, ?_, ?_, ?_⟩ <;>
        simp [enqueue, hst, hmem, batchAppend, freshBatch]
    · refine ⟨0, 1, Nat.zero_lt_one, ?_, ?_, ?_⟩ <;>
        simp [enqueue, hst, batchAppend, freshBatch]
  | cons b qinit2 ih =>
    intro L m op hmem
    obtain ⟨i, j, hij, hjlen, hbops, hops⟩ := ih L m op hmem
    rw [List.cons_append, enqueue_cons_of_ne_nil b (qinit2 ++ [L]) (by simp) m op]
    exact ⟨i + 1, j + 1, Nat.succ_lt_succ hij, by simpa using Nat.succ_lt_succ hjlen,
      by simpa using hbops, by simpa using hops⟩

theorem nodup_snoc {p : String} {l : List String} (h3 : l.Nodup) (hm : p ∉ l) :
    (l ++ [p]).Nodup := by
  simp [List.nodup_append, h3, hm]

/-- Exhaustive description of one append: the already-committed check and the
two assertions, with the partial mutation each leaves behind, and the
successful append. -/
theorem addWrite_cases (b : Builder) (p : String) (t : Unit → WriteOp) :
    (b.committed = true ∧ addWrite b p t = (b, some WriteError.alreadyCommitted)) ∨
    (b.committed = false ∧ p ∈ b.docPaths ∧
      addWrite b p t = ({ b with ops := b.ops ++ [t] },
        some WriteError.assertDuplicateDocument)) ∨
    (b.committed = false ∧ p ∉ b.docPaths ∧ b.state ≠ BatchState.OPEN ∧
      addWrite b p t = ({ b with ops := b.ops ++ [t] },
        some WriteError.assertBatchNotOpen)) ∨
    (b.committed = false ∧ p ∉ b.docPaths ∧ b.state = BatchState.OPEN ∧
      addWrite b p t = ({ b with
        docPaths := b.docPaths ++ [p],
        resultsMapSize := b.resultsMapSize + 1,
        ops := b.ops ++ [t],
        state := if b.resultsMapSize + 1 = b.maxBatchSize then BatchState.READY_TO_SEND
                 else b.state }, none)) := by
  by_cases hc : b.committed = true
  · exact Or.inl ⟨hc, by simp [addWrite, hc]⟩
  · rw [Bool.not_eq_true] at hc
    by_cases hm : p ∈ b.docPaths
    · exact Or.inr (Or.inl ⟨hc, hm, by simp [addWrite, hc, processOperation, hm]⟩)
    · by_cases hst : b.state = BatchState.OPEN
      · refine Or.inr (Or.inr (Or.inr ⟨hc, hm, hst, ?_⟩))
        by_cases hfull : b.resultsMapSize + 1 = b.maxBatchSize <;>
          simp [addWrite, hc, processOperation, hm, hst, hfull]
      · exact Or.inr (Or.inr (Or.inl ⟨hc, hm, hst, by
          simp [addWrite, hc, processOperation, hm, hst]⟩))

/-- C1 (amended): in bulk mode, operation i settles from writeResults[i] and
status[i] alone: the entry handed to the i-th result slot is built from
exactly those two, and the operation resolves with
WriteResult(writeResults[i].updateTime) precisely when updateTime is present,
otherwise rejecting with an error carrying status[i].code and
status[i].message. (The status code does not enter the resolve/reject
decision.) -/
theorem C1_bulk_settlement (ws : List IWriteResult) (sts : List IStatus) (i : Nat)
    (hlen : ws.length ≤ sts.length) (hi : i < ws.length) :
    ∃ rs, bulkCommitResults ws sts = some rs ∧ rs.length = ws.length ∧
      rs.getD i default = mkBatchWriteResult (ws.getD i default) (sts.getD i default) ∧
      settleOperation (rs.getD i default) =
        (match (ws.getD i default).updateTime with
         | some t => Except.ok { writeTime := t }
         | none => Except.error (mkGoogleError (sts.getD i default))) := by
  refine ⟨List.zipWith mkBatchWriteResult ws sts, ?_, ?_, ?_, ?_⟩
  · simp [bulkCommitResults, hlen]
  · rw [List.length_zipWith]
    omega
  · exact zipWith_getD _ ws sts i hi hlen
  · rw [zipWith_getD _ ws sts i hi hlen]
    generalize ws.getD i default = w
    cases h : w.updateTime <;> simp [settleOperation, mkBatchWriteResult, h]

/-- Witness for C1_bulk_settlement at a concrete successful response. -/
theorem C1_bulk_settlement_witness :
    (([{ updateTime := some ⟨2, 0⟩ }] : List IWriteResult).length ≤
      ([{ code := 0, message := none }] : List IStatus).length) ∧
    (0 : Nat) < ([{ updateTime := some ⟨2, 0⟩ }] : List IWriteResult).length ∧
    ∃ rs, bulkCommitResults [{ updateTime := some ⟨2, 0⟩ }] [{ code := 0, message := none }] =
        some rs ∧
      settleOperation (rs.getD 0 default) = Except.ok { writeTime := ⟨2, 0⟩ } := by
  refine ⟨by decide, by decide, ?_⟩
  obtain ⟨rs, h1, _, _, h4⟩ :=
    C1_bulk_settlement [{ updateTime := some ⟨2, 0⟩ }] [{ code := 0, message := none }] 0
      (by decide) (by decide)
  exact ⟨rs, h1, h4.trans rfl⟩

/-- Counterexample to C1 as stated: with updateTime present but
status[0].code = 14 (UNAVAILABLE, not OK), the operation still resolves with
a WriteResult instead of rejecting. -/
theorem C1_counterexample :
    bulkCommitResults [{ updateTime := some ⟨1, 0⟩ }]
        [{ code := 14, message := some "unavailable" }] =
      some [{ writeTime := some ⟨1, 0⟩,
              status := { code := 14, message := some "unavailable" } }] ∧
    settleOperation { writeTime := some ⟨1, 0⟩,
                      status := { code := 14, message := some "unavailable" } } =
      Except.ok { writeTime := ⟨1, 0⟩ } ∧
    (14 : Nat) ≠ StatusOK :=
  ⟨rfl, rfl, by decide⟩

/-- C2: a beginTransaction RPC precedes the commit (whose request then carries
the fresh transaction id) exactly when no explicit transactionId was supplied,
preferTransactions is set, and the idle clock is unset or more than
GCF_IDLE_TIMEOUT_MS = 110000 ms old; in every other case the commit is sent
directly, carrying the supplied id when present. -/
theorem C2_transaction_decision (expl : Option (List Nat)) (prefer : Bool)
    (last : Option Int) (now : Int) (newTxn : List Nat) :
    (GCF_IDLE_TIMEOUT_MS = 110000) ∧
    ((commitPlan expl prefer last now newTxn).beginTransactionIssued = true ↔
      (expl = none ∧ prefer = true ∧
        (last = none ∨ ∃ t, last = some t ∧ now - t > GCF_IDLE_TIMEOUT_MS))) ∧
    ((commitPlan expl prefer last now newTxn).transactionField =
      if (commitPlan expl prefer last now newTxn).beginTransactionIssued then some newTxn
      else expl) := by
  refine ⟨by decide, ?_, ?_⟩
  · cases expl with
    | some e => simp [commitPlan]
    | none =>
      cases prefer with
      | false => simp [commitPlan, shouldCreateTransaction]
      | true =>
        cases last with
        | none => simp [commitPlan, shouldCreateTransaction]
        | some t =>
          by_cases hgt : now - t > GCF_IDLE_TIMEOUT_MS <;>
            simp [commitPlan, shouldCreateTransaction, hgt]
  · unfold commitPlan
    split <;> simp

/-- C4: in commit mode the i-th result is WriteResult(writeResults[i].updateTime
when present, otherwise the single commitTime), and an RPC-level error rejects
the whole batch at once. -/
theorem C4_commit_mode_results (ws : List IWriteResult) (ct : Timestamp) (i : Nat)
    (hi : i < ws.length) :
    (commitResults ws ct).length = ws.length ∧
    (commitResults ws ct).getD i default =
      { writeTime := ((ws.getD i default).updateTime).getD ct } ∧
    (∀ e : GoogleError, commitSettle (Except.error e) = Except.error e) := by
  refine ⟨by simp [commitResults], ?_, fun e => rfl⟩
  unfold commitResults
  exact getD_map_of_lt (fun wr => ({ writeTime := wr.updateTime.getD ct } : WriteResult))
    ws i hi

/-- Witness for C4_commit_mode_results: one write with updateTime, one without
falling back to commitTime. -/
theorem C4_commit_mode_results_witness :
    ((1 : Nat) < ([{ updateTime := some ⟨5, 0⟩ }, { updateTime := none }] :
        List IWriteResult).length) ∧
    (commitResults [{ updateTime := some ⟨5, 0⟩ }, { updateTime := none }]
        ⟨9, 0⟩).getD 1 default = { writeTime := ⟨9, 0⟩ } := by
  refine ⟨by decide, ?_⟩
  have h := C4_commit_mode_results [{ updateTime := some ⟨5, 0⟩ }, { updateTime := none }]
    ⟨9, 0⟩ 1 (by decide)
  exact h.2.1.trans rfl

/-- C5 (amended): appending fails with the already-committed error exactly when
the _committed flag is set (checked first, leaving the batch untouched);
otherwise a duplicate document path fails the duplicate-document assertion and
a non-OPEN state fails the batch-not-open assertion, and in those two cases
the payload thunk has already been pushed onto _ops while docPaths, the
result slots and the state are unchanged. -/
theorem C5_append_failure_modes (b : Builder) (p : String) (t : Unit → WriteOp) :
    (b.committed = true → addWrite b p t = (b, some WriteError.alreadyCommitted)) ∧
    (b.committed = false → p ∈ b.docPaths →
      addWrite b p t = ({ b with ops := b.ops ++ [t] },
        some WriteError.assertDuplicateDocument)) ∧
    (b.committed = false → p ∉ b.docPaths → b.state ≠ BatchState.OPEN →
      addWrite b p t = ({ b with ops := b.ops ++ [t] },
        some WriteError.assertBatchNotOpen)) := by
  refine ⟨fun hc => by simp [addWrite, hc], fun hc hm => ?_, fun hc hm hs => ?_⟩
  · simp [addWrite, hc, processOperation, hm]
  · simp [addWrite, hc, processOperation, hm, hs]

/-- Witness for C5_append_failure_modes: the three failure modes at concrete
batches. -/
theorem C5_append_failure_modes_witness :
    (addWrite { newBuilder 5 with committed := true } "a" (createThunk 0) =
      ({ newBuilder 5 with committed := true }, some WriteError.alreadyCommitted)) ∧
    ((addWrite { newBuilder 5 with docPaths := ["a"], resultsMapSize := 1 } "a"
        (createThunk 0)).2 = some WriteError.assertDuplicateDocument) ∧
    ((addWrite { newBuilder 5 with state := BatchState.READY_TO_SEND } "a"
        (createThunk 0)).2 = some WriteError.assertBatchNotOpen) := by
  refine ⟨?_, ?_, ?_⟩
  · exact (C5_append_failure_modes _ "a" (createThunk 0)).1 rfl
  · rw [(C5_append_failure_modes _ "a" (createThunk 0)).2.1 rfl (by decide)]
  · rw [(C5_append_failure_modes _ "a" (createThunk 0)).2.2 rfl (by decide) (by decide)]

/-- Counterexample to C5 as stated: a READY_TO_SEND (full) batch is not
committed, and appending to it raises the batch-not-open assertion rather
than the already-committed error; moreover a duplicate-document failure does
append the payload thunk to the operation list. -/
theorem C5_counterexample :
    ({ newBuilder 5 with state := BatchState.READY_TO_SEND } : Builder).state ≠
      BatchState.OPEN ∧
    ({ newBuilder 5 with state := BatchState.READY_TO_SEND } : Builder).committed =
      false ∧
    (addWrite { newBuilder 5 with state := BatchState.READY_TO_SEND } "a"
        (createThunk 0)).2 ≠ some WriteError.alreadyCommitted ∧
    (addWrite { newBuilder 5 with docPaths := ["a"], resultsMapSize := 1 } "a"
        (createThunk 0)).1.ops.length =
      ({ newBuilder 5 with docPaths := ["a"], resultsMapSize := 1 } :
        Builder).ops.length + 1 :=
  ⟨by decide, rfl, by decide, by decide⟩

/-- C7 (amended): the invariant |docPaths| = |operations| = |result slots| (with
pairwise-distinct docPaths) holds of a fresh batch and is preserved by every
successful append; it does not survive a throwing append or _reset (see the
counterexample), which mutate the two sides unevenly. -/
theorem C7_batch_invariant (m : Nat) (b b2 : Builder) (p : String)
    (t : Unit → WriteOp) (hinv : batchInvariant b)
    (hok : addWrite b p t = (b2, none)) :
    batchInvariant (newBuilder m) ∧ batchInvariant b2 := by
  refine ⟨⟨rfl, rfl, List.nodup_nil⟩, ?_⟩
  obtain ⟨h1, h2, h3⟩ := hinv
  rcases addWrite_cases b p t with ⟨_, he⟩ | ⟨_, _, he⟩ | ⟨_, _, _, he⟩ | ⟨_, hm, _, he⟩ <;>
    rw [he] at hok
  · exact absurd (congrArg Prod.snd hok) (by simp)
  · exact absurd (congrArg Prod.snd hok) (by simp)
  · exact absurd (congrArg Prod.snd hok) (by simp)
  · have hb2 : b2 = { b with
        docPaths := b.docPaths ++ [p],
        resultsMapSize := b.resultsMapSize + 1,
        ops := b.ops ++ [t],
        state := if b.resultsMapSize + 1 = b.maxBatchSize then BatchState.READY_TO_SEND
                 else b.state } := (congrArg Prod.fst hok).symm
    subst hb2
    refine ⟨?_, ?_, nodup_snoc h3 hm⟩ <;> simp [h1, h2]

/-- Witness for C7_batch_invariant: a successful append to a fresh batch. -/
theorem C7_batch_invariant_witness :
    batchInvariant (newBuilder 5) ∧
    addWrite (newBuilder 5) "a" (createThunk 0) =
      ({ state := BatchState.OPEN, docPaths := ["a"], resultsMapSize := 1,
         ops := [createThunk 0], committed := false, maxBatchSize := 5 }, none) ∧
    batchInvariant { state := BatchState.OPEN, docPaths := ["a"], resultsMapSize := 1,
                     ops := [createThunk 0], committed := false, maxBatchSize := 5 } := by
  refine ⟨?_, rfl, ?_⟩
  · exact (C7_batch_invariant 5 (newBuilder 5)
      { state := BatchState.OPEN, docPaths := ["a"], resultsMapSize := 1,
        ops := [createThunk 0], committed := false, maxBatchSize := 5 } "a"
      (createThunk 0) ⟨rfl, rfl, List.nodup_nil⟩ rfl).1
  · exact (C7_batch_invariant 5 (newBuilder 5)
      { state := BatchState.OPEN, docPaths := ["a"], resultsMapSize := 1,
        ops := [createThunk 0], committed := false, maxBatchSize := 5 } "a"
      (createThunk 0) ⟨rfl, rfl, List.nodup_nil⟩ rfl).2

/-- Counterexample to C7 as stated: after _reset, docPaths still holds the one
path while the operation list is empty, so the claimed invariant fails right
after _reset (and similarly after a throwing duplicate append, see
C5_counterexample). -/
theorem C7_counterexample :
    ((addWrite (newBuilder 5) "a" (createThunk 0)).1.reset).docPaths.length = 1 ∧
    ((addWrite (newBuilder 5) "a" (createThunk 0)).1.reset).ops.length = 0 ∧
    ((addWrite (newBuilder 5) "a" (createThunk 0)).1.reset).docPaths.length ≠
      ((addWrite (newBuilder 5) "a" (createThunk 0)).1.reset).ops.length :=
  ⟨rfl, rfl, by decide⟩

/-- C9 (amended): _reset empties the operation list and clears the committed
flag, so appends and commit re-entry are permitted again; but docPaths, the
result slots and the state are retained, and in particular an append for a
document path used before the reset still fails the duplicate-document
assertion. -/
theorem C9_reset_effects (b : Builder) :
    (b.reset).ops = [] ∧ (b.reset).committed = false ∧
    (b.reset).docPaths = b.docPaths ∧ (b.reset).resultsMapSize = b.resultsMapSize ∧
    (b.reset).state = b.state ∧
    (∀ p t, p ∈ b.docPaths →
      (addWrite (b.reset) p t).2 = some WriteError.assertDuplicateDocument) := by
  refine ⟨rfl, rfl, rfl, rfl, rfl, fun p t hm => ?_⟩
  simp [addWrite, Builder.reset, processOperation, hm]

/-- Witness for C9_reset_effects: resetting a batch holding a write to "a" and
appending to "a" again fails the duplicate assertion. -/
theorem C9_reset_effects_witness :
    ("a" ∈ ((addWrite (newBuilder 5) "a" (createThunk 0)).1).docPaths) ∧
    (addWrite (((addWrite (newBuilder 5) "a" (createThunk 0)).1).reset) "a"
      (createThunk 1)).2 = some WriteError.assertDuplicateDocument := by
  refine ⟨by decide, ?_⟩
  exact (C9_reset_effects ((addWrite (newBuilder 5) "a" (createThunk 0)).1)).2.2.2.2.2
    "a" (createThunk 1) (by decide)

/-- Counterexample to C9 as stated: after _reset the operation list is empty
and committed is cleared, yet re-adding an operation on the same document
path as before the reset fails, because docPaths is retained. -/
theorem C9_counterexample :
    (((addWrite (newBuilder 5) "a" (createThunk 0)).1).reset).ops = [] ∧
    (((addWrite (newBuilder 5) "a" (createThunk 0)).1).reset).committed = false ∧
    (addWrite (((addWrite (newBuilder 5) "a" (createThunk 0)).1).reset) "a"
      (createThunk 1)).2 ≠ none :=
  ⟨rfl, rfl, by decide⟩

/-- C10: enqueue stores the payload thunk without invoking it (everything about
the post-append state and outcome other than the stored thunk list is
independent of the thunk), bulkCommit marks the batch committed before
serializing, and the writes array of the request is the image of _ops in
append order, so writes[i] is the wire form of the i-th appended operation. -/
theorem C10_deferred_serialization (b : Builder) (p : String) (t : Unit → WriteOp) :
    ((addWrite b p t).1.ops = if b.committed then b.ops else b.ops ++ [t]) ∧
    (∀ t2 : Unit → WriteOp,
      (addWrite b p t2).1.docPaths = (addWrite b p t).1.docPaths ∧
      (addWrite b p t2).1.state = (addWrite b p t).1.state ∧
      (addWrite b p t2).1.resultsMapSize = (addWrite b p t).1.resultsMapSize ∧
      (addWrite b p t2).2 = (addWrite b p t).2) ∧
    ((b.bulkCommit).1.committed = true) ∧
    ((b.bulkCommit).2 = b.ops.map (fun op => applyPrecondition (op ()))) ∧
    (∀ i, i < b.ops.length →
      (requestWrites b).getD i default = applyPrecondition ((b.ops.getD i default) ())) := by
  refine ⟨?_, ?_, rfl, ?_, ?_⟩
  · by_cases hc : b.committed = true
    · simp [addWrite, hc]
    · by_cases hm : p ∈ b.docPaths
      · simp [addWrite, hc, processOperation, hm, (Bool.not_eq_true _).mp hc]
      · by_cases hst : b.state = BatchState.OPEN
        · by_cases hfull : b.resultsMapSize + 1 = b.maxBatchSize <;>
            simp [addWrite, hc, processOperation, hm, hst, hfull, (Bool.not_eq_true _).mp hc]
        · simp [addWrite, hc, processOperation, hm, hst, (Bool.not_eq_true _).mp hc]
  · intro t2
    by_cases hc : b.committed = true
    · simp [addWrite, hc]
    · by_cases hm : p ∈ b.docPaths
      · simp [addWrite, hc, processOperation, hm]
      · by_cases hst : b.state = BatchState.OPEN
        · by_cases hfull : b.resultsMapSize + 1 = b.maxBatchSize <;>
            simp [addWrite, hc, processOperation, hm, hst, hfull]
        · simp [addWrite, hc, processOperation, hm, hst]
  · simp [Builder.bulkCommit, requestWrites, List.map_map, Function.comp]
  · intro i hi
    unfold requestWrites
    rw [getD_map_of_lt applyPrecondition _ i (by simpa using hi),
        getD_map_of_lt (fun op => op ()) b.ops i hi]

/-- Witness for C10_deferred_serialization: the serialized write at index 0 of
a one-operation batch is the wire form of its stored thunk. -/
theorem C10_deferred_serialization_witness :
    ((0 : Nat) < ({ newBuilder 5 with ops := [createThunk 3] } : Builder).ops.length) ∧
    (requestWrites { newBuilder 5 with ops := [createThunk 3] }).getD 0 default =
      applyPrecondition (createThunk 3 ()) := by
  refine ⟨by decide, ?_⟩
  exact (C10_deferred_serialization { newBuilder 5 with ops := [createThunk 3] } "a"
    (createThunk 3)).2.2.2.2 0 (by decide)

/-- C3 (amended): at serialization time currentDocument is set exactly when the
payload producer returned a truthy (non-null) precondition; update() uses
Precondition({exists: true}) when the caller supplies none, whose proto is
truthy, and the proto is truthy whenever the effective precondition is
non-empty; but a caller-supplied empty precondition passes validation,
serializes to null, and yields an update write without currentDocument (see
the counterexample). -/
theorem C3_precondition_attachment (req : WriteOp) (up : Option PreconditionData)
    (body : Nat) (mask : List (List String)) :
    (req.write.currentDocument = none →
      (applyPrecondition req).currentDocument = req.precondition) ∧
    (updateEffectivePrecondition none = { existsOpt := some true }) ∧
    ((updateEffectivePrecondition none).toProto = some { existsOpt := some true }) ∧
    (∀ p : PreconditionData, up = some p → p.isEmpty = false →
      ((updateEffectivePrecondition up).toProto).isSome = true) ∧
    ((updateThunk body mask (updateEffectivePrecondition up) ()).precondition =
      (updateEffectivePrecondition up).toProto) := by
  refine ⟨?_, rfl, rfl, ?_, rfl⟩
  · intro h
    cases hp : req.precondition <;> simp [applyPrecondition, hp, h]
  · intro p hip hempty
    subst hip
    simp only [updateEffectivePrecondition, PreconditionData.toProto, hempty,
      Bool.false_eq_true, if_false]
    split <;> simp

/-- Witness for C3_precondition_attachment: a set() write (no precondition) and
the default update precondition. -/
theorem C3_precondition_attachment_witness :
    ((setThunk 2 none ()).write.currentDocument = none) ∧
    ((applyPrecondition (setThunk 2 none ())).currentDocument =
      (setThunk 2 none ()).precondition) ∧
    (({ existsOpt := some true, lastUpdateTime := none } :
        PreconditionData).isEmpty = false) ∧
    ((updateEffectivePrecondition
        (some { existsOpt := some true, lastUpdateTime := none })).toProto).isSome =
      true := by
  refine ⟨rfl, ?_, by decide, ?_⟩
  · exact (C3_precondition_attachment (setThunk 2 none ()) none 0 []).1 rfl
  · exact (C3_precondition_attachment (setThunk 2 none ())
      (some { existsOpt := some true, lastUpdateTime := none }) 0 []).2.2.2.1
      { existsOpt := some true, lastUpdateTime := none } rfl rfl

/-- Counterexample to C3 as stated: update() with a caller-supplied empty
precondition (accepted by validateUpdatePrecondition) produces a null
precondition, so the serialized bulk write of that update carries no
currentDocument. -/
theorem C3_counterexample :
    validatePrecondition false {} = true ∧
    (Builder.update (newBuilder 5) "coll/doc" [["a"]] 0 (some {})).2 = none ∧
    requestWrites (Builder.update (newBuilder 5) "coll/doc" [["a"]] 0 (some {})).1 =
      [{ updateBody := some 0, updateMask := some [["a"]], currentDocument := none }] :=
  ⟨by decide, by decide, by decide⟩

/-- C8: an update() whose update map contains two field paths of which one
leads the other throws synchronously and leaves the batch untouched: the
returned builder is exactly the input builder, so the operation list,
docPaths, result slots and state are unchanged. -/
theorem C8_update_conflict_rejected (b : Builder) (path : String)
    (fields : List (List String)) (body : Nat) (up : Option PreconditionData)
    (h : ∃ i j, i < fields.length ∧ j < fields.length ∧ i ≠ j ∧
        fpPre (fields.getD i []) (fields.getD j []) = true) :
    ∃ e, Builder.update b path fields body up = (b, some e) := by
  have hne : fields ≠ [] := by
    obtain ⟨i, j, hi, _, _, _⟩ := h
    intro hnil
    rw [hnil] at hi
    exact absurd hi (by simp)
  have hconf := conflict_detected fields h
  unfold Builder.update
  by_cases hc : b.committed = true
  · exact ⟨WriteError.alreadyCommitted, by simp [hc]⟩
  · by_cases hpv : (match up with
        | some p => validatePrecondition false p
        | none => true) = true
    · obtain ⟨f, hf⟩ := Option.isSome_iff_exists.mp hconf
      refine ⟨WriteError.conflictingFields f, ?_⟩
      simp [hc, hpv, hf, List.isEmpty_iff, hne]
    · rw [Bool.not_eq_true] at hpv
      refine ⟨WriteError.invalidPrecondition, ?_⟩
      simp [hc, hpv, List.isEmpty_iff, hne]

/-- Witness for C8_update_conflict_rejected: an update map holding both "a" and
"a.b" is rejected and the batch is unchanged. -/
theorem C8_update_conflict_rejected_witness :
    (∃ i j, i < ([["a"], ["a", "b"]] : List (List String)).length ∧
      j < ([["a"], ["a", "b"]] : List (List String)).length ∧ i ≠ j ∧
      fpPre (([["a"], ["a", "b"]] : List (List String)).getD i [])
        (([["a"], ["a", "b"]] : List (List String)).getD j []) = true) ∧
    ∃ e, Builder.update (newBuilder 5) "coll/doc" [["a"], ["a", "b"]] 0 none =
      (newBuilder 5, some e) := by
  refine ⟨⟨0, 1, by decide⟩, ?_⟩
  exact C8_update_conflict_rejected (newBuilder 5) "coll/doc" [["a"], ["a", "b"]] 0 none
    ⟨0, 1, by decide⟩

/-- C6: enqueueing two writes to the same document path puts them into two
distinct batches, the first strictly earlier in the queue than the second, so
the dispatcher (which issues one batchWrite RPC per batch in queue order)
sends them in two separate batchWrite RPCs in enqueue order. -/
theorem C6_same_document_split (q : List SchedBatch) (m : Nat) (p : String)
    (n1 n2 : Nat) :
    ∃ i j, i < j ∧ j < (enqueue (enqueue q m (n1, p)) m (n2, p)).length ∧
      (n1, p) ∈ ((enqueue (enqueue q m (n1, p)) m (n2, p)).getD i default).bops ∧
      (n2, p) ∈ ((enqueue (enqueue q m (n1, p)) m (n2, p)).getD j default).bops ∧
      (rpcWrites (enqueue (enqueue q m (n1, p)) m (n2, p))).getD i default =
        ((enqueue (enqueue q m (n1, p)) m (n2, p)).getD i default).bops ∧
      (rpcWrites (enqueue (enqueue q m (n1, p)) m (n2, p))).getD j default =
        ((enqueue (enqueue q m (n1, p)) m (n2, p)).getD j default).bops := by
  obtain ⟨qinit, L, heq, hops, hdoc⟩ := enqueue_last q m (n1, p)
  rw [heq]
  obtain ⟨i, j, hij, hjlen, hbops, hmem⟩ := enqueue_same_doc qinit L m (n2, p) hdoc
  refine ⟨i, j, hij, hjlen, ?_, hmem, ?_, ?_⟩
  · rw [hbops]
    exact hops
  · exact getD_map_of_lt SchedBatch.bops _ i (Nat.lt_trans hij hjlen)
  · exact getD_map_of_lt SchedBatch.bops _ j hjlen

end FirestoreBatch
